import Mathlib

/-!
# Traclet: an expense-tracking HTTP API (`src/main.go`)

A shallow embedding of the handlers of `src/main.go` and of the store they talk to.

* The relational store behind `gorm` is a record of three row lists. `gorm.Model` contributes
  the primary key `ID` and, for users, the soft-delete column `DeletedAt`: `registerUser` binds
  the request body into a `User`, so a body can set it, and every `gorm` query leaves out the
  rows where it is set. Categories and transactions are never built from a request body, so
  their `DeletedAt` is always null and is left out, as are the audit timestamps.
* Every statement sent to the store bumps the ghost counter `DB.queries`, so that
  "no store call was made" can be stated.
* SQL `=` on the text columns `email` and `password` follows the collation of the store, which
  is configuration outside the program: it is the parameter `coll` of the handlers that use
  it. SQL `<=` on dates is the lexicographic order of the characters (on digits and hyphens
  every collation agrees with it).
* `float64` amounts are read as exact rationals.
* Failures of the infrastructure (connection loss and the like) are not part of the model.
-/

set_option autoImplicit false

namespace Traclet

/-! ## Data model (`src/main.go`, lines 14-34) -/

/-- Row of the `users` table: `Name`, `Email`, `Password`, and of the embedded `gorm.Model`
the `ID` and `DeletedAt` (`none` is null, `some` a time stamp: the row is soft-deleted). All
five are fields `c.ShouldBindJSON(&user)` can fill from a request body. -/
structure User where
  ID : Nat
  Name : String
  Email : String
  Password : String
  DeletedAt : Option String
deriving DecidableEq

/-- The row is not soft-deleted: the condition `deleted_at IS NULL` that `gorm` adds to every
query. -/
def User.live (u : User) : Bool := u.DeletedAt.isNone

/-- How the store decides SQL `=` between a text column and a text argument. It is fixed by the
collation of the table, which the program does not set. -/
abbrev Collation := String → String → Bool

/-- The collation that equates a text only with itself. -/
def Collation.binary : Collation := fun a b => a == b

/-- Code point of a character with the ASCII capitals mapped to the small letters. -/
def foldCase (c : Char) : Nat :=
  if 65 ≤ c.toNat ∧ c.toNat ≤ 90 then c.toNat + 32 else c.toNat

/-- A collation that ignores the case of ASCII letters, as the default collations of MySQL
do. -/
def Collation.caseInsensitive : Collation :=
  fun a b => a.data.map foldCase == b.data.map foldCase

/-- Row of the `categories` table. The source field `Type` is spelled `Type_` here, `Type`
being reserved. -/
structure Category where
  ID : Nat
  Name : String
  Type_ : String
deriving DecidableEq

/-- Row of the `transactions` table. `Amount` is a `float64` in the source, read exactly. -/
structure Transaction where
  ID : Nat
  UserID : Nat
  CategoryID : Nat
  Amount : ℚ
  Description : String
  Date : String
deriving DecidableEq

/-- The global `DB` handle: the three tables, and the number of statements issued so far. -/
structure DB where
  users : List User
  categories : List Category
  transactions : List Transaction
  queries : Nat
deriving DecidableEq

/-- The tables of a store agree (the statement counter is left aside). -/
def DB.sameRows (a b : DB) : Prop :=
  a.users = b.users ∧ a.categories = b.categories ∧ a.transactions = b.transactions

instance (a b : DB) : Decidable (a.sameRows b) := by
  unfold DB.sameRows; infer_instance

/-! ## Text helpers -/

/-- ASCII decimal digit. -/
def isDecimal (c : Char) : Bool := decide (48 ≤ c.toNat) && decide (c.toNat ≤ 57)

/-- Value of a decimal digit character. -/
def digitVal (c : Char) : Nat := c.toNat - 48

/-- Value of a run of decimal digits, most significant first. -/
def decimalValue (cs : List Char) : Nat := cs.foldl (fun n c => 10 * n + digitVal c) 0

/-- Go `strconv.Atoi` on a 64-bit platform: an optional sign followed by one or more decimal
digits, the value within the range of `int`. -/
def atoi (s : String) : Option Int :=
  let signed : Bool × List Char :=
    match s.data with
    | '-' :: r => (true, r)
    | '+' :: r => (false, r)
    | r => (false, r)
  let ds := signed.2
  if ds.isEmpty || !(ds.all isDecimal) then none
  else if signed.1 then
    (if decimalValue ds ≤ 2 ^ 63 then some (-(decimalValue ds : Int)) else none)
  else
    (if decimalValue ds < 2 ^ 63 then some (decimalValue ds : Int) else none)

/-- How the store matches a text against an unsigned integer column (`id = ?`, `user_id = ?`
with a string argument): a text that `strconv.Atoi` accepts stands for its number, which is
also when `gorm` takes a string passed to `First` for a primary key. Texts of any other shape
(fractions, SQL fragments) are outside the model: here they match no row. -/
def keyMatches (text : String) (id : Nat) : Bool := atoi text == some (id : Int)

/-- White space of Go `fmt` scanning (the `space` table of `fmt/scan.go`). -/
def isSpace (c : Char) : Bool :=
  let n := c.toNat
  (0x09 ≤ n && n ≤ 0x0d) || n == 0x20 || n == 0x85 || n == 0xa0 || n == 0x1680 ||
  (0x2000 ≤ n && n ≤ 0x200a) || n == 0x2028 || n == 0x2029 || n == 0x202f || n == 0x205f ||
  n == 0x3000

/-- Source `parseUint` (lines 262-266): `fmt.Sscanf(s, "%d", &i)` into a `uint` that starts
at 0, the error dropped. Scanning skips leading white space (a newline is an error), reads the
longest run of the characters `0123456789_`, and hands it to `strconv.ParseUint(tok, 10, 64)`,
which rejects an empty run, an underscore, and a value that does not fit 64 bits; on any error
`i` keeps 0. No sign is accepted for an unsigned operand. -/
def parseUint (s : String) : Nat :=
  let rest := s.data.dropWhile (fun c => isSpace c && c != '\n')
  let tok := rest.takeWhile (fun c => isDecimal c || c == '_')
  if tok.isEmpty || tok.any (fun c => c == '_') then 0
  else if decimalValue tok < 2 ^ 64 then decimalValue tok else 0

/-- Lexicographic `a <= b` on character lists, by code point. -/
def lexLe : List Char → List Char → Bool
  | [], _ => true
  | _ :: _, [] => false
  | a :: as, b :: bs => decide (a.toNat < b.toNat) || (a.toNat == b.toNat && lexLe as bs)

/-- SQL `a <= b` on two texts. -/
def sqlLe (a b : String) : Bool := lexLe a.data b.data

/-! ## Store operations (the `gorm` calls of the handlers) -/

/-- Count one statement. -/
def DB.tick (db : DB) : DB := { db with queries := db.queries + 1 }

/-- Row with the least key, the earliest such row on a tie: what `First` returns
(`ORDER BY id LIMIT 1`). -/
def leastBy {α : Type} (key : α → Nat) : List α → Option α
  | [] => none
  | r :: rs =>
    match leastBy key rs with
    | none => some r
    | some b => if key b < key r then some b else some r

/-- Auto-increment: an identifier above every one in use. -/
def nextID (ids : List Nat) : Nat := ids.foldr max 0 + 1

/-- Store call `DB.First(&user, userID)` with a string argument. -/
def DB.FirstUser (db : DB) (userID : String) : Option User × DB :=
  (leastBy User.ID (db.users.filter (fun u => u.live && keyMatches userID u.ID)), db.tick)

/-- Store call `DB.Where("email = ?", email).First(&existingUser)`. -/
def DB.WhereEmailFirst (coll : Collation) (db : DB) (email : String) : Option User × DB :=
  (leastBy User.ID (db.users.filter (fun u => u.live && coll u.Email email)), db.tick)

/-- Store call `DB.Where("email = ? AND password = ?", email, password).First(&user)`. -/
def DB.WhereEmailPasswordFirst (coll : Collation) (db : DB) (email password : String) :
    Option User × DB :=
  (leastBy User.ID
    (db.users.filter (fun u => u.live && coll u.Email email && coll u.Password password)),
    db.tick)

/-- Store call `DB.Create(&user)`: a zero `ID` is filled by auto-increment and a bound
`DeletedAt` is stored as it is; the insert fails on a duplicate primary key or a duplicate
`Email` (`gorm:"unique"`), and both indexes count the soft-deleted rows too. -/
def DB.CreateUser (coll : Collation) (db : DB) (user : User) : Option User × DB :=
  let row : User :=
    { user with ID := if user.ID = 0 then nextID (db.users.map User.ID) else user.ID }
  if db.users.any (fun u => u.ID == row.ID || coll u.Email row.Email) then (none, db.tick)
  else (some row, { db.tick with users := db.users ++ [row] })

/-- Store call `DB.First(&category, id)` with a `uint` argument. -/
def DB.FirstCategory (db : DB) (id : Nat) : Option Category × DB :=
  (leastBy Category.ID (db.categories.filter (fun k => k.ID == id)), db.tick)

/-- Store call `DB.Find(&categories)`. -/
def DB.FindCategories (db : DB) : List Category × DB := (db.categories, db.tick)

/-- Store call `DB.Create(&transaction)`: the `ID` is filled by auto-increment. -/
def DB.CreateTransaction (db : DB) (t : Transaction) : Option Transaction × DB :=
  let row : Transaction := { t with ID := nextID (db.transactions.map Transaction.ID) }
  (some row, { db.tick with transactions := db.transactions ++ [row] })

/-- Store call `DB.Where("user_id = ?", userID).Find(&transactions)`. -/
def DB.WhereUserFind (db : DB) (userID : String) : List Transaction × DB :=
  (db.transactions.filter (fun t => keyMatches userID t.UserID), db.tick)

/-- Store call `DB.Where("user_id = ? AND date >= ? AND date <= ?", ...).Find(&transactions)`. -/
def DB.WhereUserDateFind (db : DB) (userID startDate endDate : String) :
    List Transaction × DB :=
  (db.transactions.filter (fun t =>
      keyMatches userID t.UserID && sqlLe startDate t.Date && sqlLe t.Date endDate), db.tick)

/-! ## The `gin` request context -/

/-- What `gin.H` maps and records the handlers serialise as the JSON body. -/
inductive Payload where
  /-- Body `"error": msg`. -/
  | error (msg : String)
  /-- Body `"message": "User created", "id": id`. -/
  | userCreated (id : Nat)
  /-- Body `"message": "Login successful", "user_id": id`. -/
  | loginSuccessful (user_id : Nat)
  /-- Body: the list of categories. -/
  | categories (cs : List Category)
  /-- Body: the stored transaction. -/
  | transaction (t : Transaction)
  /-- Body: a list of transactions. -/
  | transactions (ts : List Transaction)
  /-- Body of the summary; `category_summary` is the Go map as an association list with
  distinct keys, in order of first insertion. -/
  | summary (total_income total_expense net_balance : ℚ) (category_summary : List (String × ℚ))
deriving DecidableEq

/-- HTTP response written by `c.JSON(status, body)`. -/
structure Response where
  status : Nat
  body : Payload
deriving DecidableEq

/-- The part of `*gin.Context` the program uses: the `User-ID` request header (`none` when the
request has none), the value stored under the key `"userID"` (`c.GetString` gives `""` when it
was never set), the response written so far, and whether `c.Abort()` was called. -/
structure Context where
  header : Option String
  userID : String
  response : Option Response
  aborted : Bool
deriving DecidableEq

/-- Library call `c.GetHeader("User-ID")`: the empty string when the header is absent. -/
def Context.GetHeader (c : Context) : String := c.header.getD ""

/-- Library call `c.JSON(status, body)`. -/
def Context.JSON (c : Context) (status : Nat) (body : Payload) : Context :=
  { c with response := some ⟨status, body⟩ }

/-- Library call `c.Abort()`. -/
def Context.Abort (c : Context) : Context := { c with aborted := true }

/-- Library call `c.Set("userID", v)`. -/
def Context.Set (c : Context) (v : String) : Context := { c with userID := v }

/-- A `gin.HandlerFunc`, with the store passed explicitly. -/
abbrev HandlerFunc := Context → DB → Context × DB

/-- How `gin` runs the handlers of a route in order: once the context is aborted the remaining
handlers are skipped. (`c.Next()` as the last statement of a middleware is this continuation.) -/
def runHandlers : List HandlerFunc → Context → DB → Context × DB
  | [], c, db => (c, db)
  | h :: hs, c, db =>
    if c.aborted then (c, db)
    else runHandlers hs (h c db).1 (h c db).2

/-- A fresh context for a request with the given `User-ID` header. -/
def Context.new (header : Option String) : Context :=
  { header := header, userID := "", response := none, aborted := false }

/-! ## Handlers -/

/-- Source `basicAuthMiddleware` (lines 90-109). -/
def basicAuthMiddleware : HandlerFunc := fun c db =>
  let userID := c.GetHeader
  if userID = "" then
    ((c.JSON 401 (.error "User-ID header required")).Abort, db)
  else
    match db.FirstUser userID with
    | (none, db1) => ((c.JSON 401 (.error "Invalid user")).Abort, db1)
    | (some _, db1) => (c.Set userID, db1)

/-- Source `registerUser` (lines 111-135). `body` is the outcome of `c.ShouldBindJSON(&user)`:
the bound `User`, or the error text. `coll` is the collation of the store. -/
def registerUser (coll : Collation) (body : Except String User) : HandlerFunc := fun c db =>
  match body with
  | .error e => (c.JSON 400 (.error e), db)
  | .ok user =>
    if user.Name = "" ∨ user.Email = "" ∨ user.Password = "" then
      (c.JSON 400 (.error "Name, email and password are required"), db)
    else
      match db.WhereEmailFirst coll user.Email with
      | (some _, db1) => (c.JSON 409 (.error "Email already exists"), db1)
      | (none, db1) =>
        match db1.CreateUser coll user with
        | (none, db2) => (c.JSON 500 (.error "Could not create user"), db2)
        | (some created, db2) => (c.JSON 201 (.userCreated created.ID), db2)

/-- The anonymous input struct of `loginUser`. -/
structure LoginInput where
  Email : String
  Password : String
deriving DecidableEq

/-- Source `loginUser` (lines 137-155). `coll` is the collation of the store. -/
def loginUser (coll : Collation) (body : Except String LoginInput) : HandlerFunc := fun c db =>
  match body with
  | .error e => (c.JSON 400 (.error e), db)
  | .ok input =>
    match db.WhereEmailPasswordFirst coll input.Email input.Password with
    | (none, db1) => (c.JSON 401 (.error "Invalid credentials"), db1)
    | (some user, db1) => (c.JSON 200 (.loginSuccessful user.ID), db1)

/-- Source `getCategories` (lines 157-165). -/
def getCategories : HandlerFunc := fun c db =>
  match db.FindCategories with
  | (categories, db1) => (c.JSON 200 (.categories categories), db1)

/-- The anonymous input struct of `createTransaction`; fields absent from the JSON body keep
their zero value. -/
structure TransactionInput where
  CategoryID : Nat
  Amount : ℚ
  Description : String
  Date : String
deriving DecidableEq

/-- Source `createTransaction` (lines 167-206). `today` is `time.Now().Format("2006-01-02")`. -/
def createTransaction (body : Except String TransactionInput) (today : String) : HandlerFunc :=
  fun c db =>
  let userID := c.userID
  match body with
  | .error e => (c.JSON 400 (.error e), db)
  | .ok input =>
    match db.FirstCategory input.CategoryID with
    | (none, db1) => (c.JSON 400 (.error "Invalid category"), db1)
    | (some _, db1) =>
      let date := if input.Date = "" then today else input.Date
      let transaction : Transaction :=
        { ID := 0
          UserID := parseUint userID
          CategoryID := input.CategoryID
          Amount := input.Amount
          Description := input.Description
          Date := date }
      match db1.CreateTransaction transaction with
      | (none, db2) => (c.JSON 500 (.error "Could not create transaction"), db2)
      | (some stored, db2) => (c.JSON 201 (.transaction stored), db2)

/-- Source `getTransactions` (lines 208-218). -/
def getTransactions : HandlerFunc := fun c db =>
  let userID := c.userID
  match db.WhereUserFind userID with
  | (transactions, db1) => (c.JSON 200 (.transactions transactions), db1)

/-- Go map update `m[k] += v` on the association list: a missing key reads as 0. -/
def mapAdd (m : List (String × ℚ)) (k : String) (v : ℚ) : List (String × ℚ) :=
  match m with
  | [] => [(k, 0 + v)]
  | (k1, v1) :: rest => if k1 = k then (k1, v1 + v) :: rest else (k1, v1) :: mapAdd rest k v

/-- Go map read `m[k]` with presence. -/
def mapGet (m : List (String × ℚ)) (k : String) : Option ℚ :=
  match m with
  | [] => none
  | (k1, v1) :: rest => if k1 = k then some v1 else mapGet rest k

/-- The zero `Category` a failed `First` leaves in place. -/
def Category.zero : Category := { ID := 0, Name := "", Type_ := "" }

/-- Local variables of the loop of `getSummary`. -/
structure Totals where
  totalIncome : ℚ
  totalExpense : ℚ
  categorySummary : List (String × ℚ)
deriving DecidableEq

/-- The loop of `getSummary` (lines 242-252): one category lookup per transaction. -/
def summaryLoop : List Transaction → Totals → DB → Totals × DB
  | [], acc, db => (acc, db)
  | t :: ts, acc, db =>
    let category := (db.FirstCategory t.CategoryID).1.getD Category.zero
    let db1 := (db.FirstCategory t.CategoryID).2
    let acc1 : Totals :=
      if category.Type_ = "income" then
        { acc with totalIncome := acc.totalIncome + t.Amount }
      else
        { acc with totalExpense := acc.totalExpense + t.Amount }
    summaryLoop ts
      { acc1 with categorySummary := mapAdd acc1.categorySummary category.Name t.Amount } db1

/-- The date bound `fmt.Sprintf("%s-%s-" + day, year, month)` of `getSummary`. -/
def dateBound (year month day : String) : String := year ++ "-" ++ month ++ "-" ++ day

/-- The transactions `getSummary` fetches (line 234). -/
def summarySelection (db : DB) (userID month year : String) : List Transaction :=
  (db.WhereUserDateFind userID (dateBound year month "01") (dateBound year month "31")).1

/-- Source `getSummary` (lines 220-260). `month` and `year` are `c.Query("month")` and
`c.Query("year")`, the empty string when the parameter is absent. -/
def getSummary (month year : String) : HandlerFunc := fun c db =>
  let userID := c.userID
  if month = "" ∨ year = "" then
    (c.JSON 400 (.error "Month and year parameters required"), db)
  else
    let startDate := dateBound year month "01"
    let endDate := dateBound year month "31"
    match db.WhereUserDateFind userID startDate endDate with
    | (transactions, db1) =>
      match summaryLoop transactions ⟨0, 0, []⟩ db1 with
      | (acc, db2) =>
        (c.JSON 200 (.summary acc.totalIncome acc.totalExpense
          (acc.totalIncome - acc.totalExpense) acc.categorySummary), db2)

/-- The routes of the `/transactions` group (lines 77-83): the middleware, then the handler. -/
def transactionRoutes (handler : HandlerFunc) : HandlerFunc :=
  runHandlers [basicAuthMiddleware, handler]

/-- Route `POST /transactions/`. -/
def postTransactions (body : Except String TransactionInput) (today : String) : HandlerFunc :=
  transactionRoutes (createTransaction body today)

/-- Route `GET /transactions/`. -/
def listTransactions : HandlerFunc := transactionRoutes getTransactions

/-- Route `GET /transactions/summary`. -/
def summaryRoute (month year : String) : HandlerFunc := transactionRoutes (getSummary month year)

/-- The stores the program can be in, for a store with the collation `coll`: it starts with an
empty `users` table, and then any request to any of the six routes may be served. -/
inductive Reachable (coll : Collation) : DB → Prop where
  /-- A store without users. -/
  | start (db : DB) (h : db.users = []) : Reachable coll db
  /-- Route `POST /register`. -/
  | register (db : DB) (body : Except String User) (c : Context) :
      Reachable coll db → Reachable coll (registerUser coll body c db).2
  /-- Route `POST /login`. -/
  | login (db : DB) (body : Except String LoginInput) (c : Context) :
      Reachable coll db → Reachable coll (loginUser coll body c db).2
  /-- Route `GET /categories`. -/
  | categories (db : DB) (c : Context) :
      Reachable coll db → Reachable coll (getCategories c db).2
  /-- Route `POST /transactions/`. -/
  | create (db : DB) (body : Except String TransactionInput) (today : String) (c : Context) :
      Reachable coll db → Reachable coll (postTransactions body today c db).2
  /-- Route `GET /transactions/`. -/
  | list (db : DB) (c : Context) :
      Reachable coll db → Reachable coll (listTransactions c db).2
  /-- Route `GET /transactions/summary`. -/
  | summary (db : DB) (month year : String) (c : Context) :
      Reachable coll db → Reachable coll (summaryRoute month year c db).2

/-! ## Notions the properties are stated with -/

/-- The category `getSummary` works with for a transaction: the row `First` finds for its
`CategoryID`, or the zero `Category` when there is none. -/
def categoryOf (db : DB) (t : Transaction) : Category :=
  (db.FirstCategory t.CategoryID).1.getD Category.zero

/-- Sum of the amounts of a list of transactions. -/
def amountSum (ts : List Transaction) : ℚ := (ts.map Transaction.Amount).sum

/-- Sum of the amounts of the transactions whose category type is exactly `"income"`. -/
def incomeSum (db : DB) (ts : List Transaction) : ℚ :=
  amountSum (ts.filter (fun t => decide ((categoryOf db t).Type_ = "income")))

/-- Sum of the amounts of all the other transactions. -/
def expenseSum (db : DB) (ts : List Transaction) : ℚ :=
  amountSum (ts.filter (fun t => !decide ((categoryOf db t).Type_ = "income")))

/-- Sum of the amounts of the transactions whose category has the given name. -/
def nameSum (db : DB) (ts : List Transaction) (name : String) : ℚ :=
  amountSum (ts.filter (fun t => decide ((categoryOf db t).Name = name)))

/-- Sum of the values of a map. -/
def valueSum (m : List (String × ℚ)) : ℚ := (m.map Prod.snd).sum

/-- A year of four decimal digits. -/
def fourDigitYear (y : String) : Bool := y.data.length == 4 && y.data.all isDecimal

/-- A zero-padded month, `01` to `12`. -/
def paddedMonth (m : String) : Bool :=
  match m.data with
  | [m1, m2] =>
    isDecimal m1 && isDecimal m2 &&
      decide (1 ≤ 10 * digitVal m1 + digitVal m2) &&
      decide (10 * digitVal m1 + digitVal m2 ≤ 12)
  | _ => false

/-- A date text `YYYY-MM-DD`: four digits, a month `01` to `12`, a day `01` to `31`
(every day of every calendar month is among these). -/
def wellFormedDate (d : String) : Bool :=
  match d.data with
  | [y1, y2, y3, y4, s1, m1, m2, s2, d1, d2] =>
    isDecimal y1 && isDecimal y2 && isDecimal y3 && isDecimal y4 && s1.toNat == 45 &&
      paddedMonth (String.mk [m1, m2]) && s2.toNat == 45 &&
      isDecimal d1 && isDecimal d2 &&
      decide (1 ≤ 10 * digitVal d1 + digitVal d2) &&
      decide (10 * digitVal d1 + digitVal d2 ≤ 31)
  | _ => false

/-- Year part of a date text: its first four characters. -/
def dateYear (d : String) : String := String.mk (d.data.take 4)

/-- Month part of a date text: its sixth and seventh characters. -/
def dateMonth (d : String) : String := String.mk ((d.data.drop 5).take 2)

/-- The date falls in the given month of the given year. -/
def inMonth (d year month : String) : Bool :=
  decide (dateYear d = year) && decide (dateMonth d = month)

/-! ## Example stores -/

/-- The categories `main` seeds into an empty table (lines 56-65). -/
def seedCategories : List Category :=
  [⟨1, "Salary", "income"⟩, ⟨2, "Food", "expense"⟩, ⟨3, "Transport", "expense"⟩,
   ⟨4, "Entertainment", "expense"⟩]

/-- Two registered users. -/
def exampleUsers : List User :=
  [⟨1, "Ann", "ann@example.org", "secret1", none⟩,
   ⟨2, "Bob", "bob@example.org", "secret2", none⟩]

/-- The store right after the first start of the program: the seeded categories only. -/
def freshDB : DB :=
  { users := [], categories := seedCategories, transactions := [], queries := 0 }

/-- The store after Ann and then Bob have registered on `freshDB`, under the collation that
equates a text only with itself. Its users are `exampleUsers`. -/
def registeredDB : DB :=
  (registerUser Collation.binary (.ok ⟨0, "Bob", "bob@example.org", "secret2", none⟩)
    (Context.new none)
    (registerUser Collation.binary (.ok ⟨0, "Ann", "ann@example.org", "secret1", none⟩)
      (Context.new none) freshDB).2).2

/-- The store of the example of the specification: user 1 has a salary of 1000 on 2024-03-01
and a food expense of 40 on 2024-03-15. -/
def exampleDB : DB :=
  { users := exampleUsers
    categories := seedCategories
    transactions :=
      [⟨1, 1, 1, 1000, "salary", "2024-03-01"⟩, ⟨2, 1, 2, 40, "lunch", "2024-03-15"⟩]
    queries := 0 }

/-- A store with a February transaction, transactions of two users and of two months, two
transactions of one category, and one transaction whose category does not exist. -/
def mixedDB : DB :=
  { users := exampleUsers
    categories := seedCategories
    transactions :=
      [⟨1, 1, 2, 12, "lunch", "2024-02-01"⟩, ⟨2, 1, 2, 8, "dinner", "2024-02-29"⟩,
       ⟨3, 1, 9, 5, "misc", "2024-02-15"⟩, ⟨4, 2, 2, 70, "party", "2024-02-10"⟩,
       ⟨5, 1, 1, 900, "salary", "2024-03-01"⟩, ⟨6, 1, 1, 900, "salary", "2024-01-31"⟩]
    queries := 0 }

/-! ## Lemmas on the store operations -/

/-- `First` finds no row exactly when no row matches. -/
theorem leastBy_eq_none {α : Type} (key : α → Nat) (l : List α) :
    leastBy key l = none ↔ l = [] := by
  cases l with
  | nil => simp [leastBy]
  | cons r rs =>
    simp only [leastBy]
    cases leastBy key rs with
    | none => simp
    | some b => simp; split <;> simp

/-- The row `First` finds is one of the matching rows. -/
theorem leastBy_mem {α : Type} (key : α → Nat) (l : List α) (r : α)
    (h : leastBy key l = some r) : r ∈ l := by
  induction l generalizing r with
  | nil => simp [leastBy] at h
  | cons a rs ih =>
    simp only [leastBy] at h
    cases hq : leastBy key rs with
    | none => rw [hq] at h; simp at h; simp [h]
    | some b =>
      rw [hq] at h
      simp only at h
      split at h
      · simp at h; subst h; exact List.mem_cons_of_mem _ (ih b hq)
      · simp at h; simp [h]

/-- What a registration answered 201 tells about the store before and after it. -/
theorem registerUser_created (coll : Collation) (c : Context) (db : DB) (user : User) (i : Nat)
    (h : (registerUser coll (.ok user) c db).1.response = some ⟨201, .userCreated i⟩) :
    user.Email ≠ "" ∧ (∀ u ∈ db.users, u.live = true → coll u.Email user.Email = false) ∧
      (registerUser coll (.ok user) c db).2.users = db.users ++ [{ user with ID := i }] := by
  by_cases hne : user.Name = "" ∨ user.Email = "" ∨ user.Password = ""
  · simp [registerUser, hne, Context.JSON] at h
  · cases hq : leastBy User.ID
        (db.users.filter (fun u => u.live && coll u.Email user.Email)) with
    | some e => simp [registerUser, hne, DB.WhereEmailFirst, hq, Context.JSON] at h
    | none =>
      have hnil := (leastBy_eq_none _ _).1 hq
      have hno : ∀ u ∈ db.users, u.live = true → coll u.Email user.Email = false := by
        intro u hu hl
        by_contra he
        have : u ∈ db.users.filter (fun u => u.live && coll u.Email user.Email) := by
          simp only [List.mem_filter, Bool.and_eq_true]
          exact ⟨hu, hl, by simpa using he⟩
        rw [hnil] at this
        simp at this
      simp only [not_or] at hne
      refine ⟨hne.2.1, hno, ?_⟩
      by_cases hc : (db.tick.users.any (fun u => u.ID ==
          (if user.ID = 0 then nextID (db.tick.users.map User.ID) else user.ID) ||
            coll u.Email user.Email)) = true
      · simp [registerUser, hne, DB.WhereEmailFirst, hq, DB.CreateUser, hc, Context.JSON] at h
      · simp [registerUser, hne, DB.WhereEmailFirst, hq, DB.CreateUser, hc, Context.JSON] at h ⊢
        simpa [DB.tick] using h

/-- A registration with all three fields filled in, for an email that the store equates with
the email of a user who is not soft-deleted, is answered 409 after the one lookup. -/
theorem register_conflict_eq (coll : Collation) (c : Context) (db : DB) (user : User)
    (hn : user.Name ≠ "") (he : user.Email ≠ "") (hp : user.Password ≠ "")
    (hex : ∃ u ∈ db.users, u.live = true ∧ coll u.Email user.Email = true) :
    registerUser coll (.ok user) c db
      = (c.JSON 409 (.error "Email already exists"), db.tick) := by
  obtain ⟨u, hu, hl, hue⟩ := hex
  cases hq : leastBy User.ID
      (db.users.filter (fun u => u.live && coll u.Email user.Email)) with
  | none =>
    have hnil := (leastBy_eq_none _ _).1 hq
    have : u ∈ db.users.filter (fun u => u.live && coll u.Email user.Email) := by
      simp [List.mem_filter, hu, hl, hue]
    rw [hnil] at this
    simp at this
  | some e => simp [registerUser, hn, he, hp, DB.WhereEmailFirst, hq]

/-- A registration adds at most a user whose email is not empty. -/
theorem registerUser_users (coll : Collation) (body : Except String User) (c : Context)
    (db : DB) :
    ∀ u ∈ (registerUser coll body c db).2.users, u ∈ db.users ∨ u.Email ≠ "" := by
  intro u hu
  cases body with
  | error e => left; simpa [registerUser] using hu
  | ok user =>
    by_cases hne : user.Name = "" ∨ user.Email = "" ∨ user.Password = ""
    · left; simpa [registerUser, hne] using hu
    · cases hq : leastBy User.ID
          (db.users.filter (fun u => u.live && coll u.Email user.Email)) with
      | some e =>
        left
        simpa [registerUser, hne, DB.WhereEmailFirst, hq, DB.tick] using hu
      | none =>
        simp only [not_or] at hne
        simp only [registerUser, hne, or_self, if_false, DB.WhereEmailFirst, hq,
          DB.CreateUser] at hu
        split_ifs at hu <;>
          simp only [DB.tick, List.mem_append, List.mem_singleton] at hu
        all_goals
          first
          | exact Or.inl hu
          | rcases hu with hu | hu
            · exact Or.inl hu
            · right
              rw [hu]
              exact hne.2.1

/-- A login leaves the `users` table as it is. -/
theorem loginUser_users (coll : Collation) (body : Except String LoginInput) (c : Context)
    (db : DB) : (loginUser coll body c db).2.users = db.users := by
  cases body with
  | error e => simp [loginUser]
  | ok input =>
    simp only [loginUser, DB.WhereEmailPasswordFirst]
    split <;> (rename_i heq; simp at heq; rw [← heq.2]; rfl)

/-! ## Lemmas on the map and on the loop of `getSummary` -/

/-- After `m[k] += v` the key `k` holds its old value, or 0, plus `v`. -/
theorem mapGet_mapAdd_same (m : List (String × ℚ)) (k : String) (v : ℚ) :
    mapGet (mapAdd m k v) k = some ((mapGet m k).getD 0 + v) := by
  induction m with
  | nil => simp [mapAdd, mapGet]
  | cons p rest ih =>
    obtain ⟨k1, v1⟩ := p
    by_cases h : k1 = k
    · simp [mapAdd, mapGet, h]
    · simp [mapAdd, mapGet, h, ih]

/-- The update `m[k] += v` leaves the other keys alone. -/
theorem mapGet_mapAdd_other (m : List (String × ℚ)) (k n : String) (v : ℚ) (h : k ≠ n) :
    mapGet (mapAdd m k v) n = mapGet m n := by
  induction m with
  | nil => simp [mapAdd, mapGet, h]
  | cons p rest ih =>
    obtain ⟨k1, v1⟩ := p
    by_cases h1 : k1 = k
    · subst h1; simp [mapAdd, mapGet, h]
    · by_cases h2 : k1 = n
      · subst h2; simp [mapAdd, mapGet, h1]
      · simp [mapAdd, mapGet, h1, h2, ih]

/-- The update `m[k] += v` adds `v` to the sum of the values. -/
theorem valueSum_mapAdd (m : List (String × ℚ)) (k : String) (v : ℚ) :
    valueSum (mapAdd m k v) = valueSum m + v := by
  induction m with
  | nil => simp [mapAdd, valueSum]
  | cons p rest ih =>
    obtain ⟨k1, v1⟩ := p
    by_cases h : k1 = k
    · simp [mapAdd, valueSum, h]; ring
    · simp only [valueSum] at ih
      simp [mapAdd, valueSum, h, ih]; ring

/-- The keys after `m[k] += v` are `k` and the keys before. -/
theorem keys_mapAdd (m : List (String × ℚ)) (k : String) (v : ℚ) (n : String) :
    n ∈ (mapAdd m k v).map Prod.fst ↔ n = k ∨ n ∈ m.map Prod.fst := by
  induction m with
  | nil => simp [mapAdd]
  | cons p rest ih =>
    obtain ⟨k1, v1⟩ := p
    by_cases h : k1 = k
    · subst h; simp [mapAdd]
    · simp only [mapAdd, h, if_false, List.map_cons, List.mem_cons, ih]
      tauto

/-- The update `m[k] += v` keeps the keys distinct. -/
theorem nodup_mapAdd (m : List (String × ℚ)) (k : String) (v : ℚ)
    (h : (m.map Prod.fst).Nodup) : ((mapAdd m k v).map Prod.fst).Nodup := by
  induction m with
  | nil => simp [mapAdd]
  | cons p rest ih =>
    obtain ⟨k1, v1⟩ := p
    simp only [List.map_cons, List.nodup_cons] at h
    by_cases h1 : k1 = k
    · simp [mapAdd, h1] at h ⊢
      exact h
    · have hk := keys_mapAdd rest k v k1
      simp only [mapAdd, h1, if_false, List.map_cons, List.nodup_cons]
      refine ⟨?_, ih h.2⟩
      rw [hk]
      intro hc
      rcases hc with hc | hc
      · exact h1 hc
      · exact h.1 hc

/-- Counting a statement does not change what a category lookup finds. -/
theorem categoryOf_tick (db : DB) (t : Transaction) :
    categoryOf db.tick t = categoryOf db t := rfl

theorem incomeSum_tick (db : DB) (ts : List Transaction) :
    incomeSum db.tick ts = incomeSum db ts := rfl

theorem expenseSum_tick (db : DB) (ts : List Transaction) :
    expenseSum db.tick ts = expenseSum db ts := rfl

theorem nameSum_tick (db : DB) (ts : List Transaction) (n : String) :
    nameSum db.tick ts n = nameSum db ts n := rfl

/-- One round of the loop of `getSummary`. -/
theorem summaryLoop_cons (t : Transaction) (ts : List Transaction) (acc : Totals) (db : DB) :
    summaryLoop (t :: ts) acc db =
      summaryLoop ts
        { totalIncome := if (categoryOf db t).Type_ = "income" then acc.totalIncome + t.Amount
            else acc.totalIncome
          totalExpense := if (categoryOf db t).Type_ = "income" then acc.totalExpense
            else acc.totalExpense + t.Amount
          categorySummary := mapAdd acc.categorySummary (categoryOf db t).Name t.Amount }
        db.tick := by
  simp only [summaryLoop, categoryOf]
  split <;> rfl

/-- Invariant of the loop of `getSummary`. -/
theorem summaryLoop_spec (ts : List Transaction) (acc : Totals) (db : DB) :
    (summaryLoop ts acc db).1.totalIncome = acc.totalIncome + incomeSum db ts ∧
    (summaryLoop ts acc db).1.totalExpense = acc.totalExpense + expenseSum db ts ∧
    valueSum (summaryLoop ts acc db).1.categorySummary
      = valueSum acc.categorySummary + amountSum ts ∧
    (∀ n : String, mapGet (summaryLoop ts acc db).1.categorySummary n =
      if ts.any (fun t => decide ((categoryOf db t).Name = n)) then
        some ((mapGet acc.categorySummary n).getD 0 + nameSum db ts n)
      else mapGet acc.categorySummary n) ∧
    ((acc.categorySummary.map Prod.fst).Nodup →
      ((summaryLoop ts acc db).1.categorySummary.map Prod.fst).Nodup) ∧
    (summaryLoop ts acc db).2.sameRows db ∧
    (summaryLoop ts acc db).2.queries = db.queries + ts.length := by
  induction ts generalizing acc db with
  | nil => simp [summaryLoop, incomeSum, expenseSum, amountSum, nameSum, DB.sameRows]
  | cons t ts ih =>
    rw [summaryLoop_cons]
    obtain ⟨h1, h2, h3, h4, h5, h6, h7⟩ := ih
      { totalIncome := if (categoryOf db t).Type_ = "income" then acc.totalIncome + t.Amount
            else acc.totalIncome
        totalExpense := if (categoryOf db t).Type_ = "income" then acc.totalExpense
            else acc.totalExpense + t.Amount
        categorySummary := mapAdd acc.categorySummary (categoryOf db t).Name t.Amount } db.tick
    rw [h1, h2, h3, h7]
    simp only [incomeSum_tick, expenseSum_tick, nameSum_tick, categoryOf_tick] at h4 ⊢
    refine ⟨?_, ?_, ?_, ?_, ?_, ?_, ?_⟩
    · by_cases hc : (categoryOf db t).Type_ = "income"
      · simp [incomeSum, amountSum, List.filter_cons, hc]; ring
      · simp [incomeSum, amountSum, List.filter_cons, hc]
    · by_cases hc : (categoryOf db t).Type_ = "income"
      · simp [expenseSum, amountSum, List.filter_cons, hc]
      · simp [expenseSum, amountSum, List.filter_cons, hc]; ring
    · rw [valueSum_mapAdd]; simp [amountSum]; ring
    · intro n
      rw [h4 n]
      by_cases hn : (categoryOf db t).Name = n
      · subst hn
        rw [mapGet_mapAdd_same]
        simp only [List.any_cons, decide_True, Bool.true_or, if_true, Option.getD_some]
        split
        · simp [nameSum, amountSum, List.filter_cons]; ring
        · rename_i hany
          have : List.filter
              (fun t' => decide ((categoryOf db t').Name = (categoryOf db t).Name)) ts = [] := by
            rw [List.filter_eq_nil_iff]
            intro a ha hd
            apply hany
            rw [List.any_eq_true]
            exact ⟨a, ha, hd⟩
          simp [nameSum, amountSum, List.filter_cons, this]
      · rw [mapGet_mapAdd_other _ _ _ _ hn]
        simp [List.any_cons, hn, nameSum, List.filter_cons]
    · intro hnd
      exact h5 (nodup_mapAdd _ _ _ hnd)
    · simpa [DB.sameRows, DB.tick] using h6
    · simp [DB.tick]; omega

/-- With both parameters present, `getSummary` answers 200 with the totals of its loop. -/
theorem getSummary_response (c : Context) (db : DB) (month year : String)
    (hm : month ≠ "") (hy : year ≠ "") :
    (getSummary month year c db).1.response = some ⟨200, .summary
      (incomeSum db (summarySelection db c.userID month year))
      (expenseSum db (summarySelection db c.userID month year))
      (incomeSum db (summarySelection db c.userID month year)
        - expenseSum db (summarySelection db c.userID month year))
      (summaryLoop (summarySelection db c.userID month year) ⟨0, 0, []⟩
        db.tick).1.categorySummary⟩ := by
  obtain ⟨h1, h2, -⟩ :=
    summaryLoop_spec (summarySelection db c.userID month year) ⟨0, 0, []⟩ db.tick
  simp only [incomeSum_tick, expenseSum_tick, zero_add] at h1 h2
  simp [getSummary, hm, hy, Context.JSON, summarySelection, DB.WhereUserDateFind] at h1 h2 ⊢
  simp [h1, h2]

/-- A 200 answer of `getSummary` means both parameters were present. -/
theorem getSummary_status (c : Context) (db : DB) (month year : String) (r : Response)
    (h : (getSummary month year c db).1.response = some r) (h200 : r.status = 200) :
    month ≠ "" ∧ year ≠ "" := by
  by_cases hp : month = "" ∨ year = ""
  · simp [getSummary, hp, Context.JSON] at h
    rw [← h] at h200
    simp at h200
  · simpa [not_or] using hp

/-- Every amount is counted once, as income or as expense. -/
theorem amountSum_split (db : DB) (ts : List Transaction) :
    incomeSum db ts + expenseSum db ts = amountSum ts := by
  simp only [incomeSum, expenseSum, amountSum]
  induction ts with
  | nil => simp
  | cons t ts ih =>
    by_cases hc : (categoryOf db t).Type_ = "income"
    · simp [List.filter_cons, hc, ← ih]; ring
    · simp [List.filter_cons, hc, ← ih]; ring

/-- Counting a statement does not change what `getSummary` fetches. -/
theorem summarySelection_tick (db : DB) (userID month year : String) :
    summarySelection db.tick userID month year = summarySelection db userID month year := rfl

/-- When the middleware finds a user for the header, the route runs the handler with the
header text stored under `"userID"`. -/
theorem transactionRoutes_accept (handler : HandlerFunc) (db : DB) (header : String) (U : User)
    (hU : (db.FirstUser header).1 = some U) (hne : header ≠ "") :
    transactionRoutes handler (Context.new (some header)) db =
      handler ((Context.new (some header)).Set header) db.tick := by
  simp only [DB.FirstUser] at hU
  simp [transactionRoutes, runHandlers, basicAuthMiddleware, Context.new, Context.GetHeader,
    hne, DB.FirstUser, hU, Context.Set]

/-! ## Lemmas on the order of date texts -/

/-- Characters with the same code point are equal. -/
theorem char_eq_of_toNat_eq (a b : Char) (h : a.toNat = b.toNat) : a = b := by
  apply Char.ext
  apply UInt32.ext
  exact h

/-- A common beginning does not count in the comparison. -/
theorem lexLe_append_same (p u v : List Char) : lexLe (p ++ u) (p ++ v) = lexLe u v := by
  induction p with
  | nil => rfl
  | cons a p ih => simp [lexLe, ih]

/-- Two texts that begin with different runs of the same length are not `<=` both ways. -/
theorem lexLe_antisymm_of_ne (p q u v u1 v1 : List Char) (hlen : p.length = q.length)
    (hne : p ≠ q) (h : lexLe (p ++ u) (q ++ v) = true) : lexLe (q ++ u1) (p ++ v1) = false := by
  induction p generalizing q with
  | nil =>
    cases q with
    | nil => exact absurd rfl hne
    | cons b q => simp at hlen
  | cons a p ih =>
    cases q with
    | nil => simp at hlen
    | cons b q =>
      simp only [List.cons_append, lexLe, Bool.or_eq_true, decide_eq_true_eq, Bool.and_eq_true,
        beq_iff_eq] at h
      simp only [List.cons_append, lexLe, Bool.or_eq_false_iff, decide_eq_false_iff_not,
        Bool.and_eq_false_iff]
      rcases h with h | ⟨hab, h⟩
      · constructor
        · omega
        · left; simp; omega
      · have hab' : a = b := char_eq_of_toNat_eq a b hab
        subst hab'
        constructor
        · omega
        · right
          apply ih q (by simpa using hlen) (by intro e; exact hne (by rw [e])) h
/-- Every day `01` to `31` lies between the texts `01` and `31`. -/
theorem day_in_bounds (d1 d2 : Char) (h1 : isDecimal d1 = true) (h2 : isDecimal d2 = true)
    (hlo : 1 ≤ 10 * digitVal d1 + digitVal d2) (hhi : 10 * digitVal d1 + digitVal d2 ≤ 31) :
    lexLe ['0', '1'] [d1, d2] = true ∧ lexLe [d1, d2] ['3', '1'] = true := by
  simp only [isDecimal, Bool.and_eq_true, decide_eq_true_eq] at h1 h2
  simp only [digitVal] at hlo hhi
  have e0 : ('0' : Char).toNat = 48 := rfl
  have e1 : ('1' : Char).toNat = 49 := rfl
  have e3 : ('3' : Char).toNat = 51 := rfl
  simp only [lexLe, e0, e1, e3, Bool.or_eq_true, decide_eq_true_eq, Bool.and_eq_true,
    beq_iff_eq, and_true]
  constructor <;> omega

/-- For a well-formed date, the text range `Y-M-01 <= d <= Y-M-31` of `getSummary` holds exactly
when the date has year `Y` and month `M`. -/
theorem date_range_iff (d year month : String) (hd : wellFormedDate d = true)
    (hy : fourDigitYear year = true) (hm : paddedMonth month = true) :
    (sqlLe (dateBound year month "01") d && sqlLe d (dateBound year month "31"))
      = inMonth d year month := by
  obtain ⟨cs⟩ := d
  obtain ⟨ys⟩ := year
  obtain ⟨ms⟩ := month
  unfold wellFormedDate at hd
  split at hd
  swap
  · exact absurd hd (by simp)
  rename_i y1 y2 y3 y4 s1 m1 m2 s2 d1 d2 hcs
  simp only at hcs
  subst hcs
  simp only [Bool.and_eq_true, beq_iff_eq, decide_eq_true_eq] at hd
  obtain ⟨⟨⟨⟨⟨⟨⟨⟨⟨⟨-, -⟩, -⟩, -⟩, hs1⟩, -⟩, hs2⟩, hd1⟩, hd2⟩, hlo⟩, hhi⟩ := hd
  have hs1' : s1 = '-' := char_eq_of_toNat_eq _ _ hs1
  have hs2' : s2 = '-' := char_eq_of_toNat_eq _ _ hs2
  subst hs1' hs2'
  unfold paddedMonth at hm
  split at hm
  swap
  · exact absurd hm (by simp)
  rename_i f g hms
  simp only at hms
  subst hms
  simp only [fourDigitYear, Bool.and_eq_true, beq_iff_eq] at hy
  obtain ⟨hylen, -⟩ := hy
  obtain ⟨a, b, c, e, rfl⟩ : ∃ a b c e, ys = [a, b, c, e] := by
    match ys, hylen with
    | [a, b, c, e], _ => exact ⟨a, b, c, e, rfl⟩
  obtain ⟨hday1, hday2⟩ := day_in_bounds d1 d2 hd1 hd2 hlo hhi
  have hb1 : (dateBound ⟨[a, b, c, e]⟩ ⟨[f, g]⟩ "01").data
      = [a, b, c, e, '-', f, g, '-'] ++ ['0', '1'] := by
    simp [dateBound, String.data_append]
  have hb2 : (dateBound ⟨[a, b, c, e]⟩ ⟨[f, g]⟩ "31").data
      = [a, b, c, e, '-', f, g, '-'] ++ ['3', '1'] := by
    simp [dateBound, String.data_append]
  have hq : [y1, y2, y3, y4, '-', m1, m2, '-', d1, d2]
      = [y1, y2, y3, y4, '-', m1, m2, '-'] ++ [d1, d2] := rfl
  simp only [sqlLe, hb1, hb2, hq]
  have hin : inMonth ⟨[y1, y2, y3, y4, '-', m1, m2, '-'] ++ [d1, d2]⟩ ⟨[a, b, c, e]⟩ ⟨[f, g]⟩
      = decide ([a, b, c, e, '-', f, g, '-'] = [y1, y2, y3, y4, '-', m1, m2, '-']) := by
    rw [Bool.eq_iff_iff]
    simp only [inMonth, dateYear, dateMonth, String.ext_iff, Bool.and_eq_true,
      decide_eq_true_eq, List.take, List.drop, List.cons_append, List.nil_append,
      List.cons.injEq, and_true, true_and]
    constructor
    · rintro ⟨⟨h1, h2, h3, h4⟩, h5, h6⟩
      exact ⟨h1.symm, h2.symm, h3.symm, h4.symm, h5.symm, h6.symm⟩
    · rintro ⟨h1, h2, h3, h4, h5, h6⟩
      exact ⟨⟨h1.symm, h2.symm, h3.symm, h4.symm⟩, h5.symm, h6.symm⟩
  rw [hin]
  by_cases hPQ : [a, b, c, e, '-', f, g, '-'] = [y1, y2, y3, y4, '-', m1, m2, '-']
  · rw [← hPQ, lexLe_append_same, lexLe_append_same, hday1, hday2]
    simp
  · simp only [hPQ, decide_False, Bool.and_eq_false_iff]
    by_cases h1 : lexLe ([a, b, c, e, '-', f, g, '-'] ++ ['0', '1'])
        ([y1, y2, y3, y4, '-', m1, m2, '-'] ++ [d1, d2]) = true
    · right
      exact lexLe_antisymm_of_ne _ _ _ _ _ _ rfl hPQ h1
    · left
      simpa using h1

/-- A header the middleware finds a user for is read by the store as that user's id. -/
theorem keyMatches_of_FirstUser (db : DB) (header : String) (U : User)
    (hU : (db.FirstUser header).1 = some U) :
    header ≠ "" ∧ ∀ n : Nat, keyMatches header n = decide (n = U.ID) := by
  have hmem := leastBy_mem _ _ _ hU
  simp only [List.mem_filter, keyMatches, Bool.and_eq_true, beq_iff_eq] at hmem
  obtain ⟨-, -, hk⟩ := hmem
  constructor
  · rintro rfl
    simp [atoi] at hk
  · intro n
    simp only [keyMatches, hk]
    rw [Bool.eq_iff_iff]
    simp only [beq_iff_eq, Option.some.injEq, Nat.cast_inj, decide_eq_true_eq]
    exact eq_comm

/-! ## `parseUint` against the store on unsigned texts -/

/-- A decimal digit is not skipped as white space. -/
theorem isDecimal_not_space (c : Char) (h : isDecimal c = true) :
    (isSpace c && c != '\n') = false := by
  simp only [isDecimal, Bool.and_eq_true, decide_eq_true_eq] at h
  have : isSpace c = false := by
    simp only [isSpace]
    simp only [Bool.or_eq_false_iff, Bool.and_eq_false_iff, decide_eq_false_iff_not,
      beq_eq_false_iff_ne, ne_eq]
    refine ⟨⟨⟨⟨⟨⟨⟨⟨⟨⟨?_, ?_⟩, ?_⟩, ?_⟩, ?_⟩, ?_⟩, ?_⟩, ?_⟩, ?_⟩, ?_⟩, ?_⟩ <;> omega
  simp [this]

/-- A decimal digit is not an underscore. -/
theorem isDecimal_not_underscore (c : Char) (h : isDecimal c = true) : (c == '_') = false := by
  simp only [isDecimal, Bool.and_eq_true, decide_eq_true_eq] at h
  rw [beq_eq_false_iff_ne]
  rintro rfl
  have : ('_' : Char).toNat = 95 := rfl
  omega

/-- On a text of decimal digits only, `parseUint` and the store read the same number. -/
theorem parseUint_of_digits (s : String) (n : Nat) (hd : s.data.all isDecimal = true)
    (hk : keyMatches s n = true) : parseUint s = n := by
  have hall : ∀ c ∈ s.data, isDecimal c = true := by simpa using hd
  have hdrop : s.data.dropWhile (fun c => isSpace c && c != '\n') = s.data := by
    cases hs : s.data with
    | nil => rfl
    | cons a r =>
      rw [List.dropWhile_cons]
      rw [isDecimal_not_space a (hall a (by simp [hs]))]
      simp
  have htake : s.data.takeWhile (fun c => isDecimal c || c == '_') = s.data := by
    rw [List.takeWhile_eq_self_iff]
    intro c hc
    simp [hall c hc]
  have hno : s.data.any (fun c => c == '_') = false := by
    rw [List.any_eq_false]
    intro c hc
    simp [isDecimal_not_underscore c (hall c hc)]
  cases hs : s.data with
  | nil => simp [keyMatches, atoi, hs] at hk
  | cons a r =>
    have ha := hall a (by simp [hs])
    have hminus : a ≠ '-' := by
      rintro rfl
      revert ha; decide
    have hplus : a ≠ '+' := by
      rintro rfl
      revert ha; decide
    have hat : atoi s = if decimalValue (a :: r) < 2 ^ 63 then some (decimalValue (a :: r) : Int)
        else none := by
      unfold atoi
      rw [hs]
      split
      · rename_i heq; simp at heq; exact absurd heq.1 hminus
      · rename_i heq; simp at heq; exact absurd heq.1 hplus
      · have : (a :: r).all isDecimal = true := hs ▸ hd
        simp [this]
    simp only [keyMatches, hat, beq_iff_eq] at hk
    split at hk
    · rename_i hlt
      simp only [Option.some.injEq, Nat.cast_inj] at hk
      have h64 : decimalValue (a :: r) < 2 ^ 64 := by omega
      rw [hs] at hdrop htake hno
      simp only [parseUint, hs, hdrop, htake, hno]
      simp only [List.isEmpty_cons, Bool.false_or, Bool.false_eq_true, if_false, h64, if_true]
      exact hk
    · simp at hk

/-- On a header of decimal digits only that the middleware finds a user for, and a category
that exists, `POST /transactions/` stores a transaction whose `UserID` is the id of that
user. -/
theorem postTransactions_owner_of_digits (db : DB) (header : String) (U : User)
    (input : TransactionInput) (today : String)
    (hU : (db.FirstUser header).1 = some U) (hd : header.data.all isDecimal = true)
    (hc : ∃ k ∈ db.categories, k.ID = input.CategoryID) :
    ∃ t : Transaction,
      (postTransactions (.ok input) today (Context.new (some header)) db).1.response
          = some ⟨201, .transaction t⟩ ∧
        t.UserID = U.ID ∧
        (postTransactions (.ok input) today (Context.new (some header)) db).2.transactions
          = db.transactions ++ [t] := by
  obtain ⟨hne, hk⟩ := keyMatches_of_FirstUser db header U hU
  have hp : parseUint header = U.ID :=
    parseUint_of_digits header U.ID hd (by rw [hk]; simp)
  obtain ⟨k, hkm, hkid⟩ := hc
  cases hq : leastBy Category.ID (db.categories.filter (fun k => k.ID == input.CategoryID)) with
  | none =>
    have hnil := (leastBy_eq_none _ _).1 hq
    have : k ∈ db.categories.filter (fun k => k.ID == input.CategoryID) := by
      simp [List.mem_filter, hkm, hkid]
    rw [hnil] at this
    simp at this
  | some found =>
    rw [postTransactions, transactionRoutes_accept _ _ _ _ hU hne]
    simp [createTransaction, DB.FirstCategory, DB.tick, hq, DB.CreateTransaction, Context.JSON,
      Context.Set, Context.new, hp]

/-! ## The `users` table over the life of the program -/

/-- The middleware leaves the `users` table as it is. -/
theorem basicAuthMiddleware_users (c : Context) (db : DB) :
    (basicAuthMiddleware c db).2.users = db.users := by
  simp only [basicAuthMiddleware, DB.FirstUser]
  split
  · rfl
  · split <;> (rename_i heq; simp at heq; rw [← heq.2]; rfl)

/-- The handler `createTransaction` leaves the `users` table as it is. -/
theorem createTransaction_users (body : Except String TransactionInput) (today : String)
    (c : Context) (db : DB) : (createTransaction body today c db).2.users = db.users := by
  cases body with
  | error e => simp [createTransaction]
  | ok input =>
    cases hq : leastBy Category.ID
        (db.categories.filter (fun k => k.ID == input.CategoryID)) with
    | none => simp [createTransaction, DB.FirstCategory, hq, DB.tick]
    | some k => simp [createTransaction, DB.FirstCategory, hq, DB.tick, DB.CreateTransaction]

/-- The handler `getTransactions` leaves the `users` table as it is. -/
theorem getTransactions_users (c : Context) (db : DB) :
    (getTransactions c db).2.users = db.users := by
  simp [getTransactions, DB.WhereUserFind, DB.tick]

/-- The handler `getSummary` leaves the `users` table as it is. -/
theorem getSummary_users (month year : String) (c : Context) (db : DB) :
    (getSummary month year c db).2.users = db.users := by
  by_cases hp : month = "" ∨ year = ""
  · simp [getSummary, hp]
  · obtain ⟨-, -, -, -, -, h6, -⟩ :=
      summaryLoop_spec (summarySelection db c.userID month year) ⟨0, 0, []⟩ db.tick
    simp only [getSummary, hp, if_false, DB.WhereUserDateFind]
    exact h6.1

/-- Handlers that leave the `users` table as it is do so when run in a row. -/
theorem runHandlers_users (hs : List HandlerFunc)
    (h : ∀ g ∈ hs, ∀ (c : Context) (db : DB), (g c db).2.users = db.users)
    (c : Context) (db : DB) : (runHandlers hs c db).2.users = db.users := by
  induction hs generalizing c db with
  | nil => rfl
  | cons g gs ih =>
    simp only [runHandlers]
    split
    · rfl
    · rw [ih (fun g' hg' => h g' (List.mem_cons_of_mem _ hg')), h g (List.mem_cons_self _ _)]

/-- The routes of the `/transactions` group leave the `users` table as it is. -/
theorem transactionRoutes_users (handler : HandlerFunc)
    (h : ∀ (c : Context) (db : DB), (handler c db).2.users = db.users)
    (c : Context) (db : DB) : (transactionRoutes handler c db).2.users = db.users := by
  apply runHandlers_users
  intro g hg
  simp only [List.mem_cons, List.mem_singleton, List.not_mem_nil, or_false] at hg
  rcases hg with rfl | rfl
  · exact basicAuthMiddleware_users
  · exact h

/-- No store the program can be in holds a user whose email is empty: `registerUser` is the
only writer of the table and refuses an empty email. -/
theorem reachable_email_ne (coll : Collation) (db : DB) (h : Reachable coll db) :
    ∀ u ∈ db.users, u.Email ≠ "" := by
  induction h with
  | start db h => intro u hu; rw [h] at hu; simp at hu
  | register db body c _ ih =>
    intro u hu
    rcases registerUser_users coll body c db u hu with h1 | h1
    · exact ih u h1
    · exact h1
  | login db body c _ ih => rw [loginUser_users]; exact ih
  | categories db c _ ih =>
    have : (getCategories c db).2.users = db.users := by
      simp [getCategories, DB.FindCategories, DB.tick]
    rw [this]; exact ih
  | create db body today c _ ih =>
    rw [postTransactions, transactionRoutes_users _ (createTransaction_users body today)]
    exact ih
  | list db c _ ih =>
    rw [listTransactions, transactionRoutes_users _ getTransactions_users]
    exact ih
  | summary db month year c _ ih =>
    rw [summaryRoute, transactionRoutes_users _ (getSummary_users month year)]
    exact ih

/-! ## The properties of the specification -/

/-- C1. For every store, every header the middleware finds a user `U` for, every four-digit
year and every zero-padded month `01`..`12`: when the dates of the transactions of `U` are
well-formed `YYYY-MM-DD` texts, the transactions `getSummary` fetches with the text range
`Y-M-01 <= date <= Y-M-31` are exactly the transactions of `U` whose date has that year and that
month (a day `29`, `30` or `31` never has to exist for this), and `total_income + total_expense`
of the 200 answer is the sum of the amounts of exactly those transactions. -/
theorem getSummary_selects_month (db : DB) (header : String) (U : User) (year month : String)
    (hU : (db.FirstUser header).1 = some U)
    (hy : fourDigitYear year = true) (hm : paddedMonth month = true)
    (hd : ∀ t ∈ db.transactions, t.UserID = U.ID → wellFormedDate t.Date = true) :
    summarySelection db header month year
        = db.transactions.filter
            (fun t => decide (t.UserID = U.ID) && inMonth t.Date year month) ∧
      ∃ (ti te : ℚ) (cs : List (String × ℚ)),
        (summaryRoute month year (Context.new (some header)) db).1.response
            = some ⟨200, .summary ti te (ti - te) cs⟩ ∧
          ti + te = amountSum (db.transactions.filter
            (fun t => decide (t.UserID = U.ID) && inMonth t.Date year month)) := by
  obtain ⟨hne, hk⟩ := keyMatches_of_FirstUser db header U hU
  have hsel : summarySelection db header month year
      = db.transactions.filter
          (fun t => decide (t.UserID = U.ID) && inMonth t.Date year month) := by
    simp only [summarySelection, DB.WhereUserDateFind]
    apply List.filter_congr
    intro t ht
    rw [hk t.UserID]
    by_cases hu : t.UserID = U.ID
    · have := date_range_iff t.Date year month (hd t ht hu) hy hm
      simp only [hu, decide_True, Bool.true_and, Bool.and_assoc]
      exact this
    · simp [hu]
  refine ⟨hsel, ?_⟩
  have hmne : month ≠ "" := by
    rintro rfl
    simp [paddedMonth] at hm
  have hyne : year ≠ "" := by
    rintro rfl
    simp [fourDigitYear] at hy
  refine ⟨incomeSum db (summarySelection db header month year),
    expenseSum db (summarySelection db header month year),
    (summaryLoop (summarySelection db header month year) ⟨0, 0, []⟩
      db.tick.tick).1.categorySummary, ?_, ?_⟩
  · rw [summaryRoute, transactionRoutes_accept _ _ _ _ hU hne,
      getSummary_response _ _ _ _ hmne hyne]
    rfl
  · rw [amountSum_split, hsel]

/-- C1 at a concrete input: February 2024 of user 1 in `mixedDB`, which also holds a
transaction of user 2 in that month and transactions of user 1 in January and March. -/
theorem getSummary_selects_month_witness :
    summarySelection mixedDB "1" "02" "2024"
        = mixedDB.transactions.filter
            (fun t => decide (t.UserID = 1) && inMonth t.Date "2024" "02") ∧
      ∃ (ti te : ℚ) (cs : List (String × ℚ)),
        (summaryRoute "02" "2024" (Context.new (some "1")) mixedDB).1.response
            = some ⟨200, .summary ti te (ti - te) cs⟩ ∧
          ti + te = amountSum (mixedDB.transactions.filter
            (fun t => decide (t.UserID = 1) && inMonth t.Date "2024" "02")) :=
  getSummary_selects_month mixedDB "1" ⟨1, "Ann", "ann@example.org", "secret1", none⟩
    "2024" "02"
    (by decide) (by decide) (by decide) (by decide)

/-- C2. Whenever `getSummary` answers 200, the values of `category_summary` add up to
`total_income + total_expense`, and its keys are distinct (it is a map). -/
theorem getSummary_categories_add_up (c : Context) (db : DB) (month year : String)
    (ti te nb : ℚ) (cs : List (String × ℚ))
    (h : (getSummary month year c db).1.response = some ⟨200, .summary ti te nb cs⟩) :
    valueSum cs = ti + te ∧ (cs.map Prod.fst).Nodup := by
  obtain ⟨hm, hy⟩ := getSummary_status c db month year _ h rfl
  rw [getSummary_response c db month year hm hy] at h
  simp only [Option.some.injEq, Response.mk.injEq, Payload.summary.injEq, true_and] at h
  obtain ⟨hti, hte, -, hcs⟩ := h
  obtain ⟨-, -, h3, -, h5, -⟩ :=
    summaryLoop_spec (summarySelection db c.userID month year) ⟨0, 0, []⟩ db.tick
  rw [hcs] at h3 h5
  refine ⟨?_, h5 (by simp)⟩
  rw [h3, ← hti, ← hte, amountSum_split]
  simp [valueSum]

/-- C2 at a concrete input: February 2024 of user 1 in `mixedDB`, where two transactions share
the category `Food` and one transaction has a category that does not exist. -/
theorem getSummary_categories_add_up_witness :
    valueSum [("Food", 20), ("", 5)] = 0 + 25 ∧
      (([("Food", 20), ("", 5)] : List (String × ℚ)).map Prod.fst).Nodup :=
  getSummary_categories_add_up ((Context.new (some "1")).Set "1") mixedDB "02" "2024"
    0 25 (0 - 25) [("Food", 20), ("", 5)] (by
      have hs : summarySelection mixedDB ((Context.new (some "1")).Set "1").userID "02" "2024"
          = [⟨1, 1, 2, 12, "lunch", "2024-02-01"⟩, ⟨2, 1, 2, 8, "dinner", "2024-02-29"⟩,
             ⟨3, 1, 9, 5, "misc", "2024-02-15"⟩] := by decide
      have hc1 : categoryOf mixedDB ⟨1, 1, 2, 12, "lunch", "2024-02-01"⟩
          = ⟨2, "Food", "expense"⟩ := by decide
      have hc2 : categoryOf mixedDB ⟨2, 1, 2, 8, "dinner", "2024-02-29"⟩
          = ⟨2, "Food", "expense"⟩ := by decide
      have hc3 : categoryOf mixedDB ⟨3, 1, 9, 5, "misc", "2024-02-15"⟩
          = ⟨0, "", ""⟩ := by decide
      rw [getSummary_response _ _ _ _ (by decide) (by decide), hs, summaryLoop_cons,
        summaryLoop_cons, summaryLoop_cons]
      simp only [categoryOf_tick, hc1, hc2, hc3]
      simp [summaryLoop, incomeSum, expenseSum, amountSum, List.filter_cons, hc1, hc2, hc3,
        mapAdd]
      norm_num)

/-- C3. With both parameters present `getSummary` answers 200 where `total_income` is the sum
of the amounts of the fetched transactions whose category type is exactly `"income"`,
`total_expense` the sum of the amounts of all the others (any other type, or no category
found), `net_balance` their difference, and `category_summary` maps each category name that
occurs to the sum of the amounts of its transactions and holds no other name. On the example of
the specification the answer is 1000, 40, 960 and `Salary: 1000, Food: 40`. -/
theorem getSummary_totals (c : Context) (db : DB) (month year : String)
    (hm : month ≠ "") (hy : year ≠ "") :
    (∃ cs : List (String × ℚ),
      (getSummary month year c db).1.response = some ⟨200, .summary
        (incomeSum db (summarySelection db c.userID month year))
        (expenseSum db (summarySelection db c.userID month year))
        (incomeSum db (summarySelection db c.userID month year)
          - expenseSum db (summarySelection db c.userID month year)) cs⟩ ∧
      ∀ n : String, mapGet cs n =
        if (summarySelection db c.userID month year).any
            (fun t => decide ((categoryOf db t).Name = n)) then
          some (nameSum db (summarySelection db c.userID month year) n)
        else none) ∧
    (summaryRoute "03" "2024" (Context.new (some "1")) exampleDB).1.response =
      some ⟨200, .summary 1000 40 960 [("Salary", 1000), ("Food", 40)]⟩ := by
  constructor
  · refine ⟨_, getSummary_response c db month year hm hy, ?_⟩
    intro n
    obtain ⟨-, -, -, h4, -⟩ :=
      summaryLoop_spec (summarySelection db c.userID month year) ⟨0, 0, []⟩ db.tick
    rw [h4 n]
    simp [mapGet, nameSum_tick, categoryOf_tick]
  · have hU : (exampleDB.FirstUser "1").1
        = some ⟨1, "Ann", "ann@example.org", "secret1", none⟩ := by
      decide
    rw [summaryRoute, transactionRoutes_accept _ _ _ _ hU (by decide)]
    have hs : summarySelection exampleDB.tick ((Context.new (some "1")).Set "1").userID
        "03" "2024"
        = [⟨1, 1, 1, 1000, "salary", "2024-03-01"⟩, ⟨2, 1, 2, 40, "lunch", "2024-03-15"⟩] := by
      decide
    have hc1 : categoryOf exampleDB ⟨1, 1, 1, 1000, "salary", "2024-03-01"⟩
        = ⟨1, "Salary", "income"⟩ := by decide
    have hc2 : categoryOf exampleDB ⟨2, 1, 2, 40, "lunch", "2024-03-15"⟩
        = ⟨2, "Food", "expense"⟩ := by decide
    rw [getSummary_response _ _ _ _ (by decide) (by decide), hs, summaryLoop_cons,
      summaryLoop_cons]
    simp only [categoryOf_tick, incomeSum_tick, expenseSum_tick, hc1, hc2]
    simp [summaryLoop, incomeSum, expenseSum, amountSum, List.filter_cons, hc1, hc2, mapAdd]
    norm_num

/-- C3 at a concrete input: the handler on `mixedDB` for February 2024 of user 1. -/
theorem getSummary_totals_witness :
    ∃ cs : List (String × ℚ),
      (getSummary "02" "2024" ((Context.new (some "1")).Set "1") mixedDB).1.response
        = some ⟨200, .summary
          (incomeSum mixedDB (summarySelection mixedDB "1" "02" "2024"))
          (expenseSum mixedDB (summarySelection mixedDB "1" "02" "2024"))
          (incomeSum mixedDB (summarySelection mixedDB "1" "02" "2024")
            - expenseSum mixedDB (summarySelection mixedDB "1" "02" "2024")) cs⟩ ∧
      ∀ n : String, mapGet cs n =
        if (summarySelection mixedDB "1" "02" "2024").any
            (fun t => decide ((categoryOf mixedDB t).Name = n)) then
          some (nameSum mixedDB (summarySelection mixedDB "1" "02" "2024") n)
        else none :=
  (getSummary_totals ((Context.new (some "1")).Set "1") mixedDB "02" "2024"
    (by decide) (by decide)).1

/-- C4. There is a request with a month that is not zero-padded, `month=3` and `year=2024`, that
`getSummary` answers 200 while the fetched transactions leave out a transaction of that user
dated `2024-03-15`: the bounds are `2024-3-01` and `2024-3-31`, and `2024-3-01 <= 2024-03-15`
fails as a comparison of texts. -/
theorem getSummary_unpadded_month_omits :
    (exampleDB.FirstUser "1").1 = some ⟨1, "Ann", "ann@example.org", "secret1", none⟩ ∧
    (⟨2, 1, 2, 40, "lunch", "2024-03-15"⟩ : Transaction) ∈ exampleDB.transactions ∧
    inMonth "2024-03-15" "2024" "03" = true ∧
    dateBound "2024" "3" "01" = "2024-3-01" ∧ dateBound "2024" "3" "31" = "2024-3-31" ∧
    sqlLe "2024-3-01" "2024-03-15" = false ∧
    (⟨2, 1, 2, 40, "lunch", "2024-03-15"⟩ : Transaction)
      ∉ summarySelection exampleDB "1" "3" "2024" ∧
    (summaryRoute "3" "2024" (Context.new (some "1")) exampleDB).1.response
      = some ⟨200, .summary 0 0 0 []⟩ := by
  refine ⟨by decide, by decide, by decide, by decide, by decide, by decide, by decide, ?_⟩
  have hU : (exampleDB.FirstUser "1").1
      = some ⟨1, "Ann", "ann@example.org", "secret1", none⟩ := by
    decide
  have hs : summarySelection exampleDB.tick ((Context.new (some "1")).Set "1").userID
      "3" "2024" = [] := by decide
  rw [summaryRoute, transactionRoutes_accept _ _ _ _ hU (by decide),
    getSummary_response _ _ _ _ (by decide) (by decide), hs]
  simp [summaryLoop, incomeSum, expenseSum, amountSum]

/-- C5, as amended. Let the store equate every text with itself under `=`, and let the name
and the password of the bound body be non-empty. In every store the program can be in that
holds a user with the email of the body who is not soft-deleted, `registerUser` answers 409 and
leaves the tables as they are; and after any registration answered 201 whose body left
`DeletedAt` unset, a second registration with the same email answers 409 and leaves the tables
as they are. -/
theorem registerUser_conflict (coll : Collation) (hrefl : ∀ s : String, coll s s = true)
    (c : Context) (db : DB) (user : User)
    (hn : user.Name ≠ "") (hp : user.Password ≠ "") :
    (Reachable coll db → (∃ u ∈ db.users, u.Email = user.Email ∧ u.DeletedAt = none) →
      (registerUser coll (.ok user) c db).1.response
          = some ⟨409, .error "Email already exists"⟩ ∧
        (registerUser coll (.ok user) c db).2.sameRows db) ∧
    (∀ (c0 : Context) (first : User) (i : Nat),
      first.DeletedAt = none →
      (registerUser coll (.ok first) c0 db).1.response = some ⟨201, .userCreated i⟩ →
      first.Email = user.Email →
      (registerUser coll (.ok user) c (registerUser coll (.ok first) c0 db).2).1.response
          = some ⟨409, .error "Email already exists"⟩ ∧
        (registerUser coll (.ok user) c (registerUser coll (.ok first) c0 db).2).2.sameRows
          (registerUser coll (.ok first) c0 db).2) := by
  have key : ∀ d : DB, user.Email ≠ "" →
      (∃ u ∈ d.users, u.Email = user.Email ∧ u.DeletedAt = none) →
      (registerUser coll (.ok user) c d).1.response
          = some ⟨409, .error "Email already exists"⟩ ∧
        (registerUser coll (.ok user) c d).2.sameRows d := by
    intro d he hex
    obtain ⟨u, hu, hue, hud⟩ := hex
    have hex' : ∃ u ∈ d.users, u.live = true ∧ coll u.Email user.Email = true :=
      ⟨u, hu, by simp [User.live, hud], by rw [hue]; exact hrefl _⟩
    rw [register_conflict_eq coll c d user hn he hp hex']
    simp [Context.JSON, DB.sameRows, DB.tick]
  constructor
  · intro hr hex
    obtain ⟨u, hu, hue, hud⟩ := hex
    exact key db (hue ▸ reachable_email_ne coll db hr u hu) ⟨u, hu, hue, hud⟩
  · intro c0 first i hlive h1 hem
    obtain ⟨he, -, hus⟩ := registerUser_created coll c0 db first i h1
    apply key _ (hem ▸ he)
    refine ⟨{ first with ID := i }, ?_, hem, hlive⟩
    rw [hus]
    simp

/-- C5, as amended, at concrete inputs: `registeredDB` is reached by two registrations and
holds the email of the body; and a third user registered twice in a row. -/
theorem registerUser_conflict_witness :
    ((registerUser Collation.binary (.ok ⟨0, "Ann", "ann@example.org", "other", none⟩)
        (Context.new none) registeredDB).1.response
          = some ⟨409, .error "Email already exists"⟩ ∧
      (registerUser Collation.binary (.ok ⟨0, "Ann", "ann@example.org", "other", none⟩)
        (Context.new none) registeredDB).2.sameRows registeredDB) ∧
    ((registerUser Collation.binary (.ok ⟨0, "Cy", "cy@example.org", "secret3", none⟩)
        (Context.new none) registeredDB).1.response = some ⟨201, .userCreated 3⟩ ∧
      (registerUser Collation.binary (.ok ⟨0, "Cy", "cy@example.org", "secret3", none⟩)
        (Context.new none)
        (registerUser Collation.binary (.ok ⟨0, "Cy", "cy@example.org", "secret3", none⟩)
          (Context.new none) registeredDB).2).1.response
          = some ⟨409, .error "Email already exists"⟩) :=
  ⟨(registerUser_conflict Collation.binary (fun s => by simp [Collation.binary])
      (Context.new none) registeredDB ⟨0, "Ann", "ann@example.org", "other", none⟩
      (by decide) (by decide)).1
      (Reachable.register _ _ _ (Reachable.register _ _ _ (Reachable.start freshDB rfl)))
      (by decide),
    by decide,
    ((registerUser_conflict Collation.binary (fun s => by simp [Collation.binary])
      (Context.new none) registeredDB ⟨0, "Cy", "cy@example.org", "secret3", none⟩
      (by decide) (by decide)).2 (Context.new none)
      ⟨0, "Cy", "cy@example.org", "secret3", none⟩ 3 rfl (by decide) rfl).1⟩

/-- C5 as stated fails. On the store of a first start, a body with non-empty name, email and
password that also sets `DeletedAt` is accepted with 201 and id 1; the store, still one the
program can be in, now holds a user with that email; and registering the same body again is
answered 500, not 409: the email lookup leaves out the soft-deleted row and the insert then
breaks the unique index. -/
theorem registerUser_soft_deleted_not_conflict :
    (registerUser Collation.binary
        (.ok ⟨0, "Cy", "cy@example.org", "secret3", some "2020-01-01T00:00:00Z"⟩)
        (Context.new none) freshDB).1.response = some ⟨201, .userCreated 1⟩ ∧
    Reachable Collation.binary (registerUser Collation.binary
        (.ok ⟨0, "Cy", "cy@example.org", "secret3", some "2020-01-01T00:00:00Z"⟩)
        (Context.new none) freshDB).2 ∧
    (∃ u ∈ (registerUser Collation.binary
        (.ok ⟨0, "Cy", "cy@example.org", "secret3", some "2020-01-01T00:00:00Z"⟩)
        (Context.new none) freshDB).2.users, u.Email = "cy@example.org") ∧
    (registerUser Collation.binary
        (.ok ⟨0, "Cy", "cy@example.org", "secret3", some "2020-01-01T00:00:00Z"⟩)
        (Context.new none)
        (registerUser Collation.binary
          (.ok ⟨0, "Cy", "cy@example.org", "secret3", some "2020-01-01T00:00:00Z"⟩)
          (Context.new none) freshDB).2).1.response
      = some ⟨500, .error "Could not create user"⟩ :=
  ⟨by decide, Reachable.register _ _ _ (Reachable.start freshDB rfl), by decide, by decide⟩

/-- C6, as amended. Let the store equate every text with itself under `=`. After a
registration answered 201 with id `i` for email `e` and password `p` whose body left
`DeletedAt` unset, a login with `e` and `p` answers 200 with `user_id` equal to `i`, and a login
with `e` and any password the store does not equate with `p` answers 401
`Invalid credentials`. -/
theorem loginUser_after_registerUser (coll : Collation) (hrefl : ∀ s : String, coll s s = true)
    (c c2 : Context) (db : DB) (user : User) (i : Nat) (hlive : user.DeletedAt = none)
    (h : (registerUser coll (.ok user) c db).1.response = some ⟨201, .userCreated i⟩) :
    (loginUser coll (.ok ⟨user.Email, user.Password⟩) c2
        (registerUser coll (.ok user) c db).2).1.response
        = some ⟨200, .loginSuccessful i⟩ ∧
      ∀ p : String, coll user.Password p = false →
        (loginUser coll (.ok ⟨user.Email, p⟩) c2
          (registerUser coll (.ok user) c db).2).1.response
          = some ⟨401, .error "Invalid credentials"⟩ := by
  obtain ⟨_, hno, hus⟩ := registerUser_created coll c db user i h
  have hf : ∀ p : String,
      (db.users.filter
        (fun u => u.live && coll u.Email user.Email && coll u.Password p)) = [] := by
    intro p
    rw [List.filter_eq_nil_iff]
    intro u hu
    cases hl : u.live with
    | false => simp
    | true => simp [hno u hu hl]
  have hl : ({ user with ID := i } : User).live = true := by simp [User.live, hlive]
  constructor
  · simp [loginUser, DB.WhereEmailPasswordFirst, hus, List.filter_append, hf, leastBy,
      Context.JSON, hl, hrefl]
  · intro p hp
    simp [loginUser, DB.WhereEmailPasswordFirst, hus, List.filter_append, hf, leastBy,
      Context.JSON, hp]

/-- C6, as amended, at a concrete input: a third user registered into `registeredDB` under the
collation that equates a text only with itself, then a login with the right password and one
with a password that differs in the case of one letter. -/
theorem loginUser_after_registerUser_witness :
    (loginUser Collation.binary (.ok ⟨"cy@example.org", "secret3"⟩) (Context.new none)
        (registerUser Collation.binary (.ok ⟨0, "Cy", "cy@example.org", "secret3", none⟩)
          (Context.new none) registeredDB).2).1.response = some ⟨200, .loginSuccessful 3⟩ ∧
      (loginUser Collation.binary (.ok ⟨"cy@example.org", "Secret3"⟩) (Context.new none)
        (registerUser Collation.binary (.ok ⟨0, "Cy", "cy@example.org", "secret3", none⟩)
          (Context.new none) registeredDB).2).1.response
        = some ⟨401, .error "Invalid credentials"⟩ :=
  ⟨(loginUser_after_registerUser Collation.binary (fun s => by simp [Collation.binary])
      (Context.new none) (Context.new none) registeredDB
      ⟨0, "Cy", "cy@example.org", "secret3", none⟩ 3 rfl (by decide)).1,
   (loginUser_after_registerUser Collation.binary (fun s => by simp [Collation.binary])
      (Context.new none) (Context.new none) registeredDB
      ⟨0, "Cy", "cy@example.org", "secret3", none⟩ 3 rfl (by decide)).2 "Secret3"
      (by decide)⟩

/-- C6 as stated fails, in two ways. A body that sets `DeletedAt` is registered with 201 and
id 1, and the login that follows with the same email and password is answered 401, because the
query leaves out the soft-deleted row. And under a collation that ignores case, after the
registration of the password `secret3` the login with the other password `Secret3` is answered
200. -/
theorem loginUser_after_registerUser_fails :
    ((registerUser Collation.binary
        (.ok ⟨0, "Cy", "cy@example.org", "secret3", some "2020-01-01T00:00:00Z"⟩)
        (Context.new none) freshDB).1.response = some ⟨201, .userCreated 1⟩ ∧
      (loginUser Collation.binary (.ok ⟨"cy@example.org", "secret3"⟩) (Context.new none)
        (registerUser Collation.binary
          (.ok ⟨0, "Cy", "cy@example.org", "secret3", some "2020-01-01T00:00:00Z"⟩)
          (Context.new none) freshDB).2).1.response
        = some ⟨401, .error "Invalid credentials"⟩) ∧
    ((registerUser Collation.caseInsensitive
        (.ok ⟨0, "Cy", "cy@example.org", "secret3", none⟩)
        (Context.new none) freshDB).1.response = some ⟨201, .userCreated 1⟩ ∧
      "Secret3" ≠ "secret3" ∧
      (loginUser Collation.caseInsensitive (.ok ⟨"cy@example.org", "Secret3"⟩)
        (Context.new none)
        (registerUser Collation.caseInsensitive
          (.ok ⟨0, "Cy", "cy@example.org", "secret3", none⟩)
          (Context.new none) freshDB).2).1.response
        = some ⟨200, .loginSuccessful 1⟩) := by
  decide

/-- C7, the code at a failing input. The header `+2` is accepted by the middleware as user 2
(the store reads the text as the number 2), `parseUint` of `+2` is 0, so `POST /transactions/`
answers 201 with a transaction whose `UserID` is 0, and the list of user 2 (asked with `+2` or
with `2`) does not show it. -/
theorem createTransaction_signed_header :
    (exampleDB.FirstUser "+2").1 = some ⟨2, "Bob", "bob@example.org", "secret2", none⟩ ∧
    (basicAuthMiddleware (Context.new (some "+2")) exampleDB).1.aborted = false ∧
    parseUint "+2" = 0 ∧
    (postTransactions (.ok ⟨2, 40, "lunch", "2024-03-15"⟩) "2024-05-05"
        (Context.new (some "+2")) exampleDB).1.response
      = some ⟨201, .transaction ⟨3, 0, 2, 40, "lunch", "2024-03-15"⟩⟩ ∧
    (listTransactions (Context.new (some "+2"))
        (postTransactions (.ok ⟨2, 40, "lunch", "2024-03-15"⟩) "2024-05-05"
          (Context.new (some "+2")) exampleDB).2).1.response
      = some ⟨200, .transactions []⟩ ∧
    (listTransactions (Context.new (some "2"))
        (postTransactions (.ok ⟨2, 40, "lunch", "2024-03-15"⟩) "2024-05-05"
          (Context.new (some "+2")) exampleDB).2).1.response
      = some ⟨200, .transactions []⟩ := by
  decide

/-- C8. When the name, the email or the password of the bound body is the empty string,
`registerUser` answers 400 and the store is exactly as before: no row is created and no
statement is even sent. -/
theorem registerUser_empty_field (coll : Collation) (c : Context) (db : DB) (user : User)
    (h : user.Name = "" ∨ user.Email = "" ∨ user.Password = "") :
    (registerUser coll (.ok user) c db).1.response
        = some ⟨400, .error "Name, email and password are required"⟩ ∧
      (registerUser coll (.ok user) c db).2 = db := by
  simp [registerUser, h, Context.JSON]

/-- C8 at a concrete input: a body with an empty email. -/
theorem registerUser_empty_field_witness :
    (registerUser Collation.binary (.ok ⟨0, "Cy", "", "secret3", none⟩) (Context.new none)
        exampleDB).1.response
        = some ⟨400, .error "Name, email and password are required"⟩ ∧
      (registerUser Collation.binary (.ok ⟨0, "Cy", "", "secret3", none⟩) (Context.new none)
        exampleDB).2 = exampleDB :=
  registerUser_empty_field Collation.binary (Context.new none) exampleDB
    ⟨0, "Cy", "", "secret3", none⟩ (by decide)

/-- C9. When the `category_id` of the bound body is the id of no category of the store,
`createTransaction` answers 400 `Invalid category` and the tables are as before: only the one
lookup was sent. -/
theorem createTransaction_invalid_category (c : Context) (db : DB) (input : TransactionInput)
    (today : String) (h : ∀ k ∈ db.categories, k.ID ≠ input.CategoryID) :
    (createTransaction (.ok input) today c db).1.response
        = some ⟨400, .error "Invalid category"⟩ ∧
      (createTransaction (.ok input) today c db).2.sameRows db ∧
      (createTransaction (.ok input) today c db).2.queries = db.queries + 1 := by
  have hf : db.categories.filter (fun k => k.ID == input.CategoryID) = [] := by
    simp [List.filter_eq_nil_iff]; exact h
  simp [createTransaction, DB.FirstCategory, hf, leastBy, Context.JSON, DB.sameRows, DB.tick]

/-- C9 at a concrete input: a body without `category_id`, read as 0, on the seeded store. -/
theorem createTransaction_invalid_category_witness :
    (createTransaction (.ok ⟨0, 12, "lunch", "2024-03-15"⟩) "2024-05-05"
        ((Context.new (some "1")).Set "1") exampleDB).1.response
        = some ⟨400, .error "Invalid category"⟩ ∧
      (createTransaction (.ok ⟨0, 12, "lunch", "2024-03-15"⟩) "2024-05-05"
        ((Context.new (some "1")).Set "1") exampleDB).2.sameRows exampleDB ∧
      (createTransaction (.ok ⟨0, 12, "lunch", "2024-03-15"⟩) "2024-05-05"
        ((Context.new (some "1")).Set "1") exampleDB).2.queries = exampleDB.queries + 1 :=
  createTransaction_invalid_category _ exampleDB ⟨0, 12, "lunch", "2024-03-15"⟩ "2024-05-05"
    (by decide)

/-- C10. On a route of the `/transactions` group, whatever its handler is, a request whose
`User-ID` header is absent or empty is answered 401 `User-ID header required` and aborted, and
the store is exactly as before, its statement counter included: the handler did not run and no
statement was sent. This holds for the three routes of the group in particular. -/
theorem basicAuthMiddleware_header_required (handler : HandlerFunc) (db : DB)
    (header : Option String) (h : header = none ∨ header = some "") :
    transactionRoutes handler (Context.new header) db =
        ({ header := header, userID := "", aborted := true,
           response := some ⟨401, .error "User-ID header required"⟩ }, db) ∧
      (∀ (body : Except String TransactionInput) (today : String),
        (postTransactions body today (Context.new header) db).1.response
            = some ⟨401, .error "User-ID header required"⟩ ∧
          (postTransactions body today (Context.new header) db).2 = db) ∧
      ((listTransactions (Context.new header) db).1.response
          = some ⟨401, .error "User-ID header required"⟩ ∧
        (listTransactions (Context.new header) db).2 = db) ∧
      (∀ month year : String,
        (summaryRoute month year (Context.new header) db).1.response
            = some ⟨401, .error "User-ID header required"⟩ ∧
          (summaryRoute month year (Context.new header) db).2 = db) := by
  have key : ∀ g : HandlerFunc, transactionRoutes g (Context.new header) db =
      ({ header := header, userID := "", aborted := true,
         response := some ⟨401, .error "User-ID header required"⟩ }, db) := by
    intro g
    rcases h with h | h <;> subst h <;>
      simp [transactionRoutes, runHandlers, basicAuthMiddleware, Context.new,
        Context.GetHeader, Context.JSON, Context.Abort]
  refine ⟨key handler, ?_, ?_, ?_⟩
  · intro body today
    simp [postTransactions, key]
  · simp [listTransactions, key]
  · intro month year
    simp [summaryRoute, key]

/-- C10 at a concrete input: a request without the header, and a handler that would create a
transaction if it ran. -/
theorem basicAuthMiddleware_header_required_witness :
    transactionRoutes (createTransaction (.ok ⟨1, 12, "lunch", "2024-03-15"⟩) "2024-05-05")
        (Context.new none) exampleDB =
      ({ header := none, userID := "", aborted := true,
         response := some ⟨401, .error "User-ID header required"⟩ }, exampleDB) :=
  (basicAuthMiddleware_header_required
    (createTransaction (.ok ⟨1, 12, "lunch", "2024-03-15"⟩) "2024-05-05") exampleDB none
    (Or.inl rfl)).1

end Traclet
